import Mathlib

/-!
Shallow embedding of the PPF-FoldNet preprocessing pipeline
(`input_preparation.py`): point-cloud geometry, normal estimation,
reference-point sampling, radius-neighbor collection, point-pair-feature
construction and the persisting / on-the-fly pipelines, together with
theorems settling the specification claims about them.

Float coordinates are embedded as rationals (every finite float is a
rational); real-valued feature computations (square roots, arctangents)
live in `ℝ`.  The numpy random source is embedded as an explicit
deterministic draw stream threaded through every sampling call.
-/

namespace PPFFoldNet

/-- A 3D vector with rational coordinates. -/
structure Vec3 where
  x : ℚ
  y : ℚ
  z : ℚ
  deriving DecidableEq

/-- Component-wise subtraction, `a - b` (numpy array subtraction). -/
def Vec3.sub (a b : Vec3) : Vec3 := ⟨a.x - b.x, a.y - b.y, a.z - b.z⟩

/-- Dot product of two 3D vectors (numpy `np.sum(np.multiply(a, b))`). -/
def dot3 (a b : Vec3) : ℚ := a.x * b.x + a.y * b.y + a.z * b.z

/-- Cross product of two 3D vectors (numpy `np.cross`). -/
def cross3 (a b : Vec3) : Vec3 :=
  ⟨a.y * b.z - a.z * b.y, a.z * b.x - a.x * b.z, a.x * b.y - a.y * b.x⟩

/-- Squared Euclidean distance between two points. -/
def sqDist (a b : Vec3) : ℚ := dot3 (a.sub b) (a.sub b)

/-- The zero vector, used as the default element of point lists. -/
def v0 : Vec3 := ⟨0, 0, 0⟩

/-- Euclidean norm of a vector (numpy `np.linalg.norm` / `np.sqrt(np.dot(d, d))`). -/
noncomputable def normVec (a : Vec3) : ℝ := Real.sqrt ((dot3 a a : ℚ) : ℝ)

/-- numpy `np.arctan2 x y`: the angle of the point with abscissa `y` and
ordinate `x`, i.e. the principal argument of the complex number `y + x*I`,
with values in `(-π, π]` and `arctan2 0 0 = 0`. -/
noncomputable def arctan2 (x y : ℝ) : ℝ := Complex.arg ⟨y, x⟩

/-- An open3d point cloud: a list of points and a parallel list of normals
(`pcd.points` / `pcd.normals`). -/
structure PointCloud where
  points : List Vec3
  normals : List Vec3
  deriving DecidableEq

/-- The numpy random source (the process-global `np.random` or a passed
`RandomState`): a deterministic stream of draws encoded into one natural
number, consumed 31 bits at a time.  A fixed seed is a fixed `state`. -/
structure Rng where
  state : Nat
  deriving DecidableEq

/-- Consume one draw from the random source. -/
def Rng.next (r : Rng) : Nat × Rng := (r.state % 2 ^ 31, ⟨r.state / 2 ^ 31⟩)

/-- The `ValueError` raised by `numpy.random.choice`: either the population
is empty, or a sample larger than the population was requested with
`replace=False`. -/
inductive SamplingError where
  | emptySample
  | sampleTooLarge
  deriving DecidableEq

/-- Draw `k` elements from `l` without replacement: each step draws one
position uniformly among the remaining elements and removes it
(the partial Fisher-Yates selection behind
`numpy.random.choice(l, k, replace=False)`). -/
def sampleNoReplace : Nat → List Nat → Rng → List Nat × Rng
  | 0, _, r => ([], r)
  | k + 1, l, r =>
    let p := r.next
    let j := p.1 % l.length
    let rest := sampleNoReplace k (l.eraseIdx j) p.2
    (l.getD j 0 :: rest.1, rest.2)

/-- `numpy.random.choice(l, k, replace=False)`: raises when the requested
sample is larger than the population. -/
def choiceNoReplace (r : Rng) (l : List Nat) (k : Nat) :
    Except SamplingError (List Nat × Rng) :=
  if k ≤ l.length then .ok (sampleNoReplace k l r) else .error .sampleTooLarge

/-- Draw `k` elements from `l` with replacement: each step draws one
position uniformly in `l`. -/
def sampleWithReplace : Nat → List Nat → Rng → List Nat × Rng
  | 0, _, r => ([], r)
  | k + 1, l, r =>
    let p := r.next
    let rest := sampleWithReplace k l p.2
    (l.getD (p.1 % l.length) 0 :: rest.1, rest.2)

/-- `numpy.random.choice(l, k)` (with replacement): raises when the
population is empty. -/
def choiceWithReplace (r : Rng) (l : List Nat) (k : Nat) :
    Except SamplingError (List Nat × Rng) :=
  if l.length = 0 then .error .emptySample else .ok (sampleWithReplace k l r)

/-- `open3d.geometry.select_down_sample(pcd, inds)`: the cloud holding the
points and normals of `pcd` at the indices `inds`, pairing preserved. -/
def select_down_sample (pcd : PointCloud) (inds : List Nat) : PointCloud :=
  ⟨inds.map fun i => pcd.points.getD i v0,
   inds.map fun i => pcd.normals.getD i v0⟩

/-- `select_referenced_point(pcd, num_patches)`: draw `num_patches` point
indices without replacement from `range(num_points)` and keep those
points/normals (source lines 37-42). -/
def select_referenced_point (rng : Rng) (pcd : PointCloud) (num_patches : Nat) :
    Except SamplingError (PointCloud × Rng) :=
  let num_points := pcd.points.length
  match choiceNoReplace rng (List.range num_points) num_patches with
  | .error e => .error e
  | .ok ir => .ok (select_down_sample pcd ir.1, ir.2)

/-- `open3d.geometry.KDTreeFlann.search_radius_vector_3d(point, vicinity)`:
all indices of cloud points within `vicinity` of the query point, ordered by
increasing distance.  The caller relies on that order only through the fact
that a zero-distance hit comes first, so the embedding lists the
zero-distance indices first, then the remaining in-radius indices. -/
def search_radius_vector_3d (pcd : PointCloud) (q : Vec3) (vicinity : ℚ) :
    List Nat :=
  let within := (List.range pcd.points.length).filter fun i =>
    sqDist (pcd.points.getD i v0) q ≤ vicinity * vicinity
  within.filter (fun i => sqDist (pcd.points.getD i v0) q = 0) ++
    within.filter (fun i => ¬ sqDist (pcd.points.getD i v0) q = 0)

/-- The body of the `collect_local_neighbor` loop for one reference point
(source lines 50-64): radius query, drop the first hit (the point itself),
then subsample without replacement when the raw hit count `k` exceeds
`num_points_per_patch`, and with replacement otherwise.  The same branch is
taken whether the draws come from a passed `random_state` or from the
process-global source; the embedding threads the one source `rng`. -/
def collectOne (rng : Rng) (pcd : PointCloud) (point : Vec3) (vicinity : ℚ)
    (num_points_per_patch : Nat) : Except SamplingError (List Nat × Rng) :=
  let idx := search_radius_vector_3d pcd point vicinity
  let k := idx.length
  if num_points_per_patch < k then
    choiceNoReplace rng (idx.drop 1) num_points_per_patch
  else
    choiceWithReplace rng (idx.drop 1) num_points_per_patch

/-- The `collect_local_neighbor` loop over the reference points, threading
the random source; a raised sampling error aborts the whole call. -/
def collectLoop (rng : Rng) (pcd : PointCloud) (pts : List Vec3)
    (vicinity : ℚ) (num_points_per_patch : Nat) :
    Except SamplingError (List (List Nat) × Rng) :=
  match pts with
  | [] => .ok ([], rng)
  | p :: rest =>
    match collectOne rng pcd p vicinity num_points_per_patch with
    | .error e => .error e
    | .ok ir =>
      match collectLoop ir.2 pcd rest vicinity num_points_per_patch with
      | .error e => .error e
      | .ok dr => .ok (ir.1 :: dr.1, dr.2)

/-- `collect_local_neighbor(ref_pcd, pcd, vicinity, num_points_per_patch)`
(source lines 45-65): one `NeighborIndexSet` per reference point. -/
def collect_local_neighbor (rng : Rng) (ref_pcd pcd : PointCloud)
    (vicinity : ℚ) (num_points_per_patch : Nat) :
    Except SamplingError (List (List Nat) × Rng) :=
  collectLoop rng pcd ref_pcd.points vicinity num_points_per_patch

/-- The vectorized `_ppf(point1, normal1, point2, normal2)` (source lines
86-111): `point1`/`normal1` are the reference point and normal, broadcast
against the arrays `point2`/`normal2` of neighbor points and normals.
With `d = point1 - point2` (row-wise), it computes
`len_d = sqrt(diag(d @ d.T)) / 0.3` (row `i` of `diag(d @ d.T)` is
`dot (d i) (d i)`), the three angle rows
`arctan2(norm(cross(a, b)), dot(a, b)) / pi` for the pairs
`(normal1, d)`, `(normal2, d)`, `(normal1, normal2)`, and returns
`np.array([dim1, dim2, dim3, len_d]).transpose()`: row `i` of the result is
`(dim1 i, dim2 i, dim3 i, len_d i)`. -/
noncomputable def ppf (point1 normal1 : Vec3) (point2 normal2 : List Vec3) :
    List (Fin 4 → ℝ) :=
  let d := point2.map fun p => point1.sub p
  let len_d := d.map fun v => Real.sqrt ((dot3 v v : ℚ) : ℝ) / 0.3
  let dim1 := d.map fun v =>
    arctan2 (normVec (cross3 normal1 v)) ((dot3 normal1 v : ℚ) : ℝ) / Real.pi
  let dim2 := (normal2.zip d).map fun nv =>
    arctan2 (normVec (cross3 nv.1 nv.2)) ((dot3 nv.1 nv.2 : ℚ) : ℝ) / Real.pi
  let dim3 := normal2.map fun n =>
    arctan2 (normVec (cross3 normal1 n)) ((dot3 normal1 n : ℚ) : ℝ) / Real.pi
  (List.range d.length).map fun i =>
    ![dim1.getD i 0, dim2.getD i 0, dim3.getD i 0, len_d.getD i 0]

/-- `build_local_patch(ref_pcd, pcd, neighbor)` (source lines 68-83): for
each reference point/normal and its neighbor index list, gather the neighbor
points and normals from the source cloud and compute their PPF rows. -/
noncomputable def build_local_patch (ref_pcd pcd : PointCloud)
    (neighbor : List (List Nat)) : List (List (Fin 4 → ℝ)) :=
  ((ref_pcd.points.zip ref_pcd.normals).zip neighbor).map fun rn =>
    ppf rn.1.1 rn.1.2
      (rn.2.map fun i => pcd.points.getD i v0)
      (rn.2.map fun i => pcd.normals.getD i v0)

/-- A 4x4 rigid transform loaded from a `.pose.npy` file. -/
def Pose := Fin 4 → Fin 4 → ℚ

/-- The external open3d / file-system collaborators the pipeline calls into:
reading a point cloud from a path, voxel downsampling, applying a pose,
loading a pose file, `open3d.geometry.estimate_normals` (returning the
success flag and the cloud with normals attached), and `os.path.exists`. -/
structure Env where
  read_point_cloud : String → PointCloud
  voxel_down_sample : PointCloud → ℚ → PointCloud
  load_pose : String → Pose
  transform : PointCloud → Pose → PointCloud
  estimate_normals : PointCloud → Bool × PointCloud
  path_exists : String → Bool

/-- Observable side effects of the pipeline: a printed message, a
`os.makedirs` call, a `np.save` of the LocalPatch tensor (cast to float32)
at a path, a `write_point_cloud` of the reference cloud at a path, and the
invocation of `select_referenced_point` (reference sampling). -/
inductive Ev where
  | printMsg (s : String)
  | makedirs (dir : String)
  | save_npy (path : String)
  | write_pcd (path : String)
  | selectRefCall
  deriving DecidableEq

/-- `rgbd_to_point_cloud(data_dir, ind, downsample, aligned)` (source lines
14-25): read `<ind>.ply`, voxel-downsample unless `downsample = 0`, and when
`aligned`, transform by the pose loaded from `<ind>.pose.npy`. -/
def rgbd_to_point_cloud (env : Env) (data_dir ind : String)
    (downsample : ℚ) (aligned : Bool) : PointCloud :=
  let pcd := env.read_point_cloud (data_dir ++ "/" ++ ind ++ ".ply")
  let pcd := if downsample = 0 then pcd else env.voxel_down_sample pcd downsample
  if aligned then
    env.transform pcd (env.load_pose (data_dir ++ "/" ++ ind ++ ".pose.npy"))
  else pcd

/-- `cal_local_normal(pcd)` (source lines 28-34): run
`estimate_normals`; return `true` on success, and print
"Calculate Normal Error" and return `false` on failure.  The cloud carries
whatever normals `estimate_normals` attached. -/
def cal_local_normal (env : Env) (pcd : PointCloud) :
    Bool × PointCloud × List Ev :=
  let fp := env.estimate_normals pcd
  if fp.1 then (true, fp.2, [])
  else (false, fp.2, [Ev.printMsg "Calculate Normal Error"])

/-- Python `str` of the builtin function `id`.  The f-strings
`f'{save_dir}/{id}.npy'` and `f"{save_dir}/{id}.pcd"` in `input_preprocess`
interpolate the *builtin* `id` (the parameter is named `local_id`), so this
constant is what actually lands in the file names. -/
def pyIdBuiltinStr : String := "<built-in function id>"

/-- `input_preprocess(data_dir, local_id, save_dir)` (source lines 114-143):
load the fragment cloud, estimate normals (the returned flag is not
consulted), sample 2048 reference points, collect 1024 neighbors per
reference within vicinity 0.3, build the local patch, create the save
directory when absent and save `local_patch.astype(np.float32)` and the
reference cloud.  The result is the outcome (a raised sampling error
propagates) paired with the emitted side effects in order. -/
noncomputable def input_preprocess (env : Env) (rng : Rng)
    (data_dir local_id save_dir : String) :
    Except SamplingError Unit × List Ev :=
  let pcd0 := rgbd_to_point_cloud env data_dir local_id (3 / 100) true
  let fpe := cal_local_normal env pcd0
  let pcd := fpe.2.1
  match select_referenced_point rng pcd 2048 with
  | .error e => (.error e, fpe.2.2 ++ [Ev.selectRefCall])
  | .ok rr =>
    match collect_local_neighbor rr.2 rr.1 pcd (3 / 10) 1024 with
    | .error e => (.error e, fpe.2.2 ++ [Ev.selectRefCall])
    | .ok nr =>
      let _local_patch := build_local_patch rr.1 pcd nr.1
      let evDir := if env.path_exists save_dir then [] else [Ev.makedirs save_dir]
      (.ok (), fpe.2.2 ++ [Ev.selectRefCall] ++ evDir ++
        [Ev.save_npy (save_dir ++ "/" ++ pyIdBuiltinStr ++ ".npy"),
         Ev.write_pcd (save_dir ++ "/" ++ pyIdBuiltinStr ++ ".pcd")])

/-- `get_local_patches_on_the_fly(data_dir, ind, num_patches,
num_points_per_patch)` (source lines 146-155): same pipeline without the
saving step; returns the local patch in memory. -/
noncomputable def get_local_patches_on_the_fly (env : Env) (rng : Rng)
    (data_dir ind : String) (num_patches num_points_per_patch : Nat) :
    Except SamplingError (List (List (Fin 4 → ℝ))) × List Ev :=
  let pcd0 := rgbd_to_point_cloud env data_dir ind (3 / 100) true
  let fpe := cal_local_normal env pcd0
  let pcd := fpe.2.1
  match select_referenced_point rng pcd num_patches with
  | .error e => (.error e, fpe.2.2 ++ [Ev.selectRefCall])
  | .ok rr =>
    match collect_local_neighbor rr.2 rr.1 pcd (3 / 10) num_points_per_patch with
    | .error e => (.error e, fpe.2.2 ++ [Ev.selectRefCall])
    | .ok nr =>
      (.ok (build_local_patch rr.1 pcd nr.1), fpe.2.2 ++ [Ev.selectRefCall])

/-- The `<fragment>.npy` paths among the emitted events. -/
def savedNpyPaths (evs : List Ev) : List String :=
  evs.filterMap fun e =>
    match e with
    | .save_npy p => some p
    | _ => none

/-- The `<fragment>.pcd` paths among the emitted events. -/
def savedPcdPaths (evs : List Ev) : List String :=
  evs.filterMap fun e =>
    match e with
    | .write_pcd p => some p
    | _ => none

/-- The per-reference-point neighbor collection that follows the
specification's words letter by letter, for comparison with `collectOne`:
branch on the candidate count *after* self-exclusion (subsample without
replacement when it strictly exceeds the target, with replacement when it
is less than or equal). -/
def collectOneSpec (rng : Rng) (pcd : PointCloud) (point : Vec3)
    (vicinity : ℚ) (num_points_per_patch : Nat) :
    Except SamplingError (List Nat × Rng) :=
  let candidates := (search_radius_vector_3d pcd point vicinity).drop 1
  if num_points_per_patch < candidates.length then
    choiceNoReplace rng candidates num_points_per_patch
  else
    choiceWithReplace rng candidates num_points_per_patch

/-- Projection used to state concrete sampling results: the index list of a
successful neighbor collection. -/
def resultIndices (e : Except SamplingError (List Nat × Rng)) :
    Option (List Nat) :=
  match e with
  | .ok ir => some ir.1
  | .error _ => none

/-! ### Concrete instances used to exercise the definitions -/

/-- A random source whose draws are all zero. -/
def rngZero : Rng := ⟨0⟩

/-- A two-point cloud whose second point is far from the origin. -/
def cloudTwo : PointCloud := ⟨[⟨0, 0, 0⟩, ⟨1, 0, 0⟩], [⟨0, 0, 1⟩, ⟨0, 0, 1⟩]⟩

/-- A two-point cloud whose second point is close to the origin. -/
def cloudNear : PointCloud :=
  ⟨[⟨0, 0, 0⟩, ⟨1 / 10, 0, 0⟩], [⟨0, 0, 1⟩, ⟨0, 0, 1⟩]⟩

/-- A three-point cloud on a line, all within vicinity 0.3 of the origin. -/
def cloudThree : PointCloud :=
  ⟨[⟨0, 0, 0⟩, ⟨1 / 10, 0, 0⟩, ⟨2 / 10, 0, 0⟩],
   [⟨0, 0, 1⟩, ⟨0, 0, 1⟩, ⟨0, 0, 1⟩]⟩

/-- A reference cloud holding just the origin. -/
def refOrigin : PointCloud := ⟨[⟨0, 0, 0⟩], [⟨0, 0, 1⟩]⟩

/-- A stub environment: every load returns `cloudThree`, downsampling and
pose application are identity, and normal estimation reports failure. -/
def envStub : Env :=
  ⟨fun _ => cloudThree, fun p _ => p, fun _ => fun _ _ => 0, fun p _ => p,
   fun p => (false, p), fun _ => true⟩

/-! ### Helper lemmas about the samplers -/

theorem getD_mem_of_lt {l : List Nat} {j : Nat} (h : j < l.length) :
    l.getD j 0 ∈ l := by
  rw [List.getD_eq_getElem _ _ h]
  exact List.getElem_mem h

theorem not_mem_eraseIdx_self :
    ∀ {l : List Nat} {j : Nat}, l.Nodup → j < l.length →
      l.getD j 0 ∉ l.eraseIdx j := by
  intro l
  induction l with
  | nil => intro j _ hj; simp at hj
  | cons a t ih =>
    intro j hn hj
    rcases List.nodup_cons.1 hn with ⟨ha, ht⟩
    match j with
    | 0 => simpa using ha
    | Nat.succ j =>
      have hjt : j < t.length := by simpa using hj
      simp only [List.eraseIdx_cons_succ, List.getD_cons_succ, List.mem_cons]
      push_neg
      refine ⟨?_, ih ht hjt⟩
      intro hEq
      exact ha (hEq ▸ getD_mem_of_lt hjt)

theorem sampleNoReplace_length (k : Nat) (l : List Nat) (r : Rng)
    (h : k ≤ l.length) : (sampleNoReplace k l r).1.length = k := by
  induction k generalizing l r with
  | zero => simp [sampleNoReplace]
  | succ k ih =>
    have hpos : 0 < l.length := by omega
    have hj : r.next.1 % l.length < l.length := Nat.mod_lt _ hpos
    have hlen : (l.eraseIdx (r.next.1 % l.length)).length = l.length - 1 :=
      List.length_eraseIdx_of_lt hj
    simp only [sampleNoReplace, List.length_cons]
    rw [ih (l.eraseIdx (r.next.1 % l.length)) r.next.2 (by omega)]

theorem sampleNoReplace_subset (k : Nat) (l : List Nat) (r : Rng)
    (h : k ≤ l.length) : ∀ a ∈ (sampleNoReplace k l r).1, a ∈ l := by
  induction k generalizing l r with
  | zero => simp [sampleNoReplace]
  | succ k ih =>
    intro a ha
    have hpos : 0 < l.length := by omega
    have hj : r.next.1 % l.length < l.length := Nat.mod_lt _ hpos
    have hlen : (l.eraseIdx (r.next.1 % l.length)).length = l.length - 1 :=
      List.length_eraseIdx_of_lt hj
    simp only [sampleNoReplace, List.mem_cons] at ha
    rcases ha with h1 | h2
    · exact h1 ▸ getD_mem_of_lt hj
    · exact List.eraseIdx_subset _ _
        (ih (l.eraseIdx (r.next.1 % l.length)) r.next.2 (by omega) a h2)

theorem sampleNoReplace_nodup (k : Nat) (l : List Nat) (r : Rng)
    (hn : l.Nodup) (h : k ≤ l.length) : (sampleNoReplace k l r).1.Nodup := by
  induction k generalizing l r with
  | zero => simp [sampleNoReplace]
  | succ k ih =>
    have hpos : 0 < l.length := by omega
    have hj : r.next.1 % l.length < l.length := Nat.mod_lt _ hpos
    have hlen : (l.eraseIdx (r.next.1 % l.length)).length = l.length - 1 :=
      List.length_eraseIdx_of_lt hj
    have hne : (l.eraseIdx (r.next.1 % l.length)).Nodup :=
      hn.sublist (List.eraseIdx_sublist l _)
    simp only [sampleNoReplace, List.nodup_cons]
    refine ⟨?_, ih _ r.next.2 hne (by omega)⟩
    intro hmem
    exact not_mem_eraseIdx_self hn hj
      (sampleNoReplace_subset k _ r.next.2 (by omega) _ hmem)

theorem sampleWithReplace_length (k : Nat) (l : List Nat) (r : Rng) :
    (sampleWithReplace k l r).1.length = k := by
  induction k generalizing r with
  | zero => simp [sampleWithReplace]
  | succ k ih => simp only [sampleWithReplace, List.length_cons, ih]

theorem sampleWithReplace_subset (k : Nat) (l : List Nat) (r : Rng)
    (h : 0 < l.length) : ∀ a ∈ (sampleWithReplace k l r).1, a ∈ l := by
  induction k generalizing r with
  | zero => simp [sampleWithReplace]
  | succ k ih =>
    intro a ha
    simp only [sampleWithReplace, List.mem_cons] at ha
    rcases ha with h1 | h2
    · exact h1 ▸ getD_mem_of_lt (Nat.mod_lt _ h)
    · exact ih r.next.2 a h2

theorem choiceNoReplace_eq_ok (r : Rng) (l : List Nat) (k : Nat)
    (h : k ≤ l.length) : choiceNoReplace r l k = .ok (sampleNoReplace k l r) := by
  simp [choiceNoReplace, h]

theorem choiceWithReplace_eq_ok (r : Rng) (l : List Nat) (k : Nat)
    (h : 0 < l.length) :
    choiceWithReplace r l k = .ok (sampleWithReplace k l r) := by
  simp [choiceWithReplace, Nat.pos_iff_ne_zero.1 h]

/-! ### Helper lemmas about the radius search and neighbor collection -/

theorem sqDist_self (a : Vec3) : sqDist a a = 0 := by
  simp [sqDist, Vec3.sub, dot3]

theorem search_radius_nodup (pcd : PointCloud) (q : Vec3) (vic : ℚ) :
    (search_radius_vector_3d pcd q vic).Nodup := by
  unfold search_radius_vector_3d
  apply List.Nodup.append
  · exact List.Nodup.filter _ (List.Nodup.filter _ (List.nodup_range _))
  · exact List.Nodup.filter _ (List.Nodup.filter _ (List.nodup_range _))
  · intro a h1 h2
    simp only [List.mem_filter, decide_eq_true_eq] at h1 h2
    exact h2.2 h1.2

theorem mem_search_radius {pcd : PointCloud} {q : Vec3} {vic : ℚ} {a : Nat} :
    a ∈ search_radius_vector_3d pcd q vic ↔
      a < pcd.points.length ∧ sqDist (pcd.points.getD a v0) q ≤ vic * vic := by
  unfold search_radius_vector_3d
  simp only [List.mem_append, List.mem_filter, List.mem_range, decide_eq_true_eq]
  constructor
  · rintro (⟨⟨h1, h2⟩, _⟩ | ⟨⟨h1, h2⟩, _⟩) <;> exact ⟨h1, h2⟩
  · rintro ⟨h1, h2⟩
    by_cases h0 : sqDist (pcd.points.getD a v0) q = 0
    · exact Or.inl ⟨⟨h1, h2⟩, h0⟩
    · exact Or.inr ⟨⟨h1, h2⟩, h0⟩

theorem collectOne_ok (rng : Rng) (pcd : PointCloud) (point : Vec3) (vic : ℚ)
    (num : Nat)
    (hc : 1 ≤ ((search_radius_vector_3d pcd point vic).drop 1).length) :
    ∃ out rng', collectOne rng pcd point vic num = .ok (out, rng') ∧
      out.length = num ∧
      (∀ a ∈ out, a ∈ (search_radius_vector_3d pcd point vic).drop 1) ∧
      (num ≤ ((search_radius_vector_3d pcd point vic).drop 1).length →
        out.Nodup) := by
  have hlen : ((search_radius_vector_3d pcd point vic).drop 1).length =
      (search_radius_vector_3d pcd point vic).length - 1 := by
    simp [List.length_drop]
  have hdropnd : ((search_radius_vector_3d pcd point vic).drop 1).Nodup :=
    (search_radius_nodup pcd point vic).sublist (List.drop_sublist 1 _)
  by_cases hbr : num < (search_radius_vector_3d pcd point vic).length
  · have hnum : num ≤ ((search_radius_vector_3d pcd point vic).drop 1).length := by
      omega
    refine ⟨(sampleNoReplace num ((search_radius_vector_3d pcd point vic).drop 1) rng).1,
      (sampleNoReplace num ((search_radius_vector_3d pcd point vic).drop 1) rng).2,
      ?_, sampleNoReplace_length _ _ _ hnum,
      sampleNoReplace_subset _ _ _ hnum,
      fun _ => sampleNoReplace_nodup _ _ _ hdropnd hnum⟩
    simp only [collectOne]
    rw [if_pos hbr, choiceNoReplace_eq_ok _ _ _ hnum]
  · refine ⟨(sampleWithReplace num ((search_radius_vector_3d pcd point vic).drop 1) rng).1,
      (sampleWithReplace num ((search_radius_vector_3d pcd point vic).drop 1) rng).2,
      ?_, sampleWithReplace_length _ _ _,
      sampleWithReplace_subset _ _ _ hc, ?_⟩
    · simp only [collectOne]
      rw [if_neg hbr, choiceWithReplace_eq_ok _ _ _ hc]
    · intro hnum
      omega

theorem collectOne_error_elim (rng : Rng) (pcd : PointCloud) (point : Vec3)
    (vic : ℚ) (num : Nat) (e : SamplingError)
    (h : collectOne rng pcd point vic num = .error e) : e = .emptySample := by
  have hlen : ((search_radius_vector_3d pcd point vic).drop 1).length =
      (search_radius_vector_3d pcd point vic).length - 1 := by
    simp [List.length_drop]
  by_cases hbr : num < (search_radius_vector_3d pcd point vic).length
  · have hnum : num ≤ ((search_radius_vector_3d pcd point vic).drop 1).length := by
      omega
    simp only [collectOne] at h
    rw [if_pos hbr, choiceNoReplace_eq_ok _ _ _ hnum] at h
    simp at h
  · simp only [collectOne] at h
    rw [if_neg hbr] at h
    unfold choiceWithReplace at h
    by_cases h0 : ((search_radius_vector_3d pcd point vic).drop 1).length = 0
    · rw [if_pos h0] at h
      simpa using h.symm
    · rw [if_neg h0] at h
      simp at h

theorem collectOne_error_of_short (rng : Rng) (pcd : PointCloud) (point : Vec3)
    (vic : ℚ) (num : Nat) (h1 : 1 ≤ num)
    (h2 : (search_radius_vector_3d pcd point vic).length ≤ 1) :
    collectOne rng pcd point vic num = .error .emptySample := by
  have hbr : ¬ num < (search_radius_vector_3d pcd point vic).length := by omega
  have h0 : ((search_radius_vector_3d pcd point vic).drop 1).length = 0 := by
    simp only [List.length_drop]
    omega
  simp only [collectOne]
  rw [if_neg hbr]
  unfold choiceWithReplace
  rw [if_pos h0]

theorem collectLoop_ok_length (pcd : PointCloud) (vic : ℚ) (num : Nat) :
    ∀ (pts : List Vec3) (rng : Rng) (res : List (List Nat)) (rng' : Rng),
      collectLoop rng pcd pts vic num = .ok (res, rng') →
      res.length = pts.length := by
  intro pts
  induction pts with
  | nil =>
    intro rng res rng' h
    simp only [collectLoop, Except.ok.injEq, Prod.mk.injEq] at h
    rw [← h.1]
    rfl
  | cons p rest ih =>
    intro rng res rng' h
    simp only [collectLoop] at h
    split at h
    · simp at h
    · rename_i ir heq
      split at h
      · simp at h
      · rename_i dr heq2
        simp only [Except.ok.injEq, Prod.mk.injEq] at h
        rw [← h.1]
        simp only [List.length_cons]
        rw [ih ir.2 dr.1 dr.2 heq2]

theorem collectLoop_entry (pcd : PointCloud) (vic : ℚ) (num : Nat) :
    ∀ (pts : List Vec3) (rng : Rng) (res : List (List Nat)) (rng' : Rng),
      collectLoop rng pcd pts vic num = .ok (res, rng') →
      ∀ j, j < pts.length →
        ∃ r0 r1, collectOne r0 pcd (pts.getD j v0) vic num =
          .ok (res.getD j [], r1) := by
  intro pts
  induction pts with
  | nil => intro rng res rng' _ j hj; simp at hj
  | cons p rest ih =>
    intro rng res rng' h j hj
    simp only [collectLoop] at h
    split at h
    · simp at h
    · rename_i ir heq
      split at h
      · simp at h
      · rename_i dr heq2
        simp only [Except.ok.injEq, Prod.mk.injEq] at h
        match j with
        | 0 =>
          refine ⟨rng, ir.2, ?_⟩
          rw [← h.1]
          simpa using heq
        | Nat.succ j =>
          have hjr : j < rest.length := by simpa using hj
          rcases ih ir.2 dr.1 dr.2 heq2 j hjr with ⟨r0, r1, hr⟩
          refine ⟨r0, r1, ?_⟩
          rw [← h.1]
          simpa using hr

theorem collectLoop_error_of_bad (pcd : PointCloud) (vic : ℚ) (num : Nat)
    (h1 : 1 ≤ num) :
    ∀ (pts : List Vec3) (rng : Rng) (j : Nat), j < pts.length →
      (search_radius_vector_3d pcd (pts.getD j v0) vic).length ≤ 1 →
      collectLoop rng pcd pts vic num = .error .emptySample := by
  intro pts
  induction pts with
  | nil => intro rng j hj; simp at hj
  | cons p rest ih =>
    intro rng j hj hshort
    match j with
    | 0 =>
      have hz := collectOne_error_of_short rng pcd p vic num h1 (by simpa using hshort)
      simp only [collectLoop]
      rw [hz]
    | Nat.succ j =>
      have hjr : j < rest.length := by simpa using hj
      simp only [collectLoop]
      split
      · rename_i e heq
        rw [collectOne_error_elim rng pcd p vic num e heq]
      · rename_i ir heq
        split
        · rename_i e2 heq2
          rw [ih ir.2 j hjr (by simpa using hshort)] at heq2
          simp only [Except.error.injEq] at heq2
          rw [← heq2]
        · rename_i dr heq2
          rw [ih ir.2 j hjr (by simpa using hshort)] at heq2
          simp at heq2

theorem collectLoop_cons_ok {rng rng' rng'' : Rng} {pcd : PointCloud}
    {p : Vec3} {rest : List Vec3} {vic : ℚ} {num : Nat} {out : List Nat}
    {res : List (List Nat)}
    (hok : collectOne rng pcd p vic num = .ok (out, rng'))
    (hloop : collectLoop rng' pcd rest vic num = .ok (res, rng'')) :
    collectLoop rng pcd (p :: rest) vic num = .ok (out :: res, rng'') := by
  simp only [collectLoop, hok, hloop]

theorem collectLoop_ok_of_all (pcd : PointCloud) (vic : ℚ) (num : Nat) :
    ∀ (pts : List Vec3) (rng : Rng),
      (∀ j, j < pts.length →
        1 ≤ ((search_radius_vector_3d pcd (pts.getD j v0) vic).drop 1).length) →
      ∃ res rng', collectLoop rng pcd pts vic num = .ok (res, rng') ∧
        res.length = pts.length := by
  intro pts
  induction pts with
  | nil => exact fun rng _ => ⟨[], rng, rfl, rfl⟩
  | cons p rest ih =>
    intro rng hall
    rcases collectOne_ok rng pcd p vic num (by simpa using hall 0 (by simp)) with
      ⟨out, rng', hok, _, _, _⟩
    rcases ih rng' (fun j hj => by simpa using hall (j + 1) (by simpa using hj)) with
      ⟨res, rng'', hloop, hlen⟩
    exact ⟨out :: res, rng'', collectLoop_cons_ok hok hloop, by simp [hlen]⟩

theorem collectOne_ok_subset {rng rng' : Rng} {pcd : PointCloud} {point : Vec3}
    {vic : ℚ} {num : Nat} {out : List Nat}
    (hok : collectOne rng pcd point vic num = .ok (out, rng')) :
    ∀ a ∈ out, a ∈ (search_radius_vector_3d pcd point vic).drop 1 := by
  have hlen : ((search_radius_vector_3d pcd point vic).drop 1).length =
      (search_radius_vector_3d pcd point vic).length - 1 := by
    simp [List.length_drop]
  by_cases hbr : num < (search_radius_vector_3d pcd point vic).length
  · have hnum : num ≤ ((search_radius_vector_3d pcd point vic).drop 1).length := by
      omega
    simp only [collectOne] at hok
    rw [if_pos hbr, choiceNoReplace_eq_ok _ _ _ hnum] at hok
    simp only [Except.ok.injEq] at hok
    intro a ha
    have h1 : (sampleNoReplace num ((search_radius_vector_3d pcd point vic).drop 1)
        rng).1 = out := by rw [hok]
    rw [← h1] at ha
    exact sampleNoReplace_subset _ _ _ hnum a ha
  · simp only [collectOne] at hok
    rw [if_neg hbr] at hok
    unfold choiceWithReplace at hok
    by_cases h0 : ((search_radius_vector_3d pcd point vic).drop 1).length = 0
    · rw [if_pos h0] at hok
      simp at hok
    · rw [if_neg h0] at hok
      simp only [Except.ok.injEq] at hok
      intro a ha
      have h1 : (sampleWithReplace num ((search_radius_vector_3d pcd point vic).drop 1)
          rng).1 = out := by rw [hok]
      rw [← h1] at ha
      exact sampleWithReplace_subset _ _ _ (by omega) a ha

theorem nodup_eq_singleton {l : List Nat} {a : Nat} (hn : l.Nodup) (ha : a ∈ l)
    (hall : ∀ x ∈ l, x = a) : l = [a] := by
  cases l with
  | nil => simp at ha
  | cons b t =>
    have hb : b = a := hall b (by simp)
    subst hb
    rcases List.nodup_cons.1 hn with ⟨hbt, _⟩
    cases t with
    | nil => rfl
    | cons c u =>
      have hc : c = b := hall c (by simp)
      exact absurd (hc ▸ List.mem_cons_self c u) hbt

theorem zero_filter_eq (pcd : PointCloud) (q : Vec3) (vic : ℚ) (i : Nat)
    (hi : i < pcd.points.length)
    (hself0 : sqDist (pcd.points.getD i v0) q = 0)
    (huniq : ∀ m, m < pcd.points.length → m ≠ i →
      sqDist (pcd.points.getD m v0) q ≠ 0) :
    ((List.range pcd.points.length).filter fun m =>
        sqDist (pcd.points.getD m v0) q ≤ vic * vic).filter
      (fun m => sqDist (pcd.points.getD m v0) q = 0) = [i] := by
  apply nodup_eq_singleton
  · exact List.Nodup.filter _ (List.Nodup.filter _ (List.nodup_range _))
  · simp only [List.mem_filter, List.mem_range, decide_eq_true_eq]
    exact ⟨⟨hi, by rw [hself0]; exact mul_self_nonneg vic⟩, hself0⟩
  · intro x hx
    simp only [List.mem_filter, List.mem_range, decide_eq_true_eq] at hx
    by_contra hne
    exact huniq x hx.1.1 hne hx.2

theorem search_drop_one (pcd : PointCloud) (q : Vec3) (vic : ℚ) (i : Nat)
    (hi : i < pcd.points.length)
    (hself0 : sqDist (pcd.points.getD i v0) q = 0)
    (huniq : ∀ m, m < pcd.points.length → m ≠ i →
      sqDist (pcd.points.getD m v0) q ≠ 0) :
    (search_radius_vector_3d pcd q vic).drop 1 =
      ((List.range pcd.points.length).filter fun m =>
          sqDist (pcd.points.getD m v0) q ≤ vic * vic).filter
        (fun m => ¬ sqDist (pcd.points.getD m v0) q = 0) := by
  simp only [search_radius_vector_3d]
  rw [zero_filter_eq pcd q vic i hi hself0 huniq]
  rfl

theorem getD_map_vec {l : List Nat} {f : Nat → Vec3} {j : Nat}
    (hj : j < l.length) : (l.map f).getD j v0 = f (l.getD j 0) := by
  rw [List.getD_eq_getElem _ _ (by simpa using hj), List.getElem_map,
    List.getD_eq_getElem _ _ hj]

theorem getD_map_of_lt {α β : Type _} {l : List α} {f : α → β} {j : Nat}
    (hj : j < l.length) (d : β) (d' : α) :
    (l.map f).getD j d = f (l.getD j d') := by
  rw [List.getD_eq_getElem _ _ (by simpa using hj), List.getElem_map,
    List.getD_eq_getElem _ _ hj]

theorem getD_zip_of_lt {α β : Type _} {l1 : List α} {l2 : List β} {j : Nat}
    (h1 : j < l1.length) (h2 : j < l2.length) (d1 : α) (d2 : β) :
    (l1.zip l2).getD j (d1, d2) = (l1.getD j d1, l2.getD j d2) := by
  rw [List.getD_eq_getElem _ _ (by simp only [List.length_zip]; omega),
    List.getElem_zip, List.getD_eq_getElem _ _ h1, List.getD_eq_getElem _ _ h2]

/-! ### Helper lemmas about the point pair features -/

theorem arctan2_div_pi_bounds (x y : ℝ) (hx : 0 ≤ x) :
    0 ≤ arctan2 x y / Real.pi ∧ arctan2 x y / Real.pi ≤ 1 := by
  have harg1 : 0 ≤ arctan2 x y := Complex.arg_nonneg_iff.2 hx
  have harg2 : arctan2 x y ≤ Real.pi := Complex.arg_le_pi _
  exact ⟨div_nonneg harg1 Real.pi_pos.le, (div_le_one Real.pi_pos).2 harg2⟩

theorem ppf_getD (p1 n1 : Vec3) (pts ns : List Vec3) (i : Nat)
    (hi : i < pts.length) (hn : ns.length = pts.length) :
    (ppf p1 n1 pts ns).getD i (fun _ => 0) =
      ![arctan2 (normVec (cross3 n1 (p1.sub (pts.getD i v0))))
          ((dot3 n1 (p1.sub (pts.getD i v0)) : ℚ) : ℝ) / Real.pi,
        arctan2 (normVec (cross3 (ns.getD i v0) (p1.sub (pts.getD i v0))))
          ((dot3 (ns.getD i v0) (p1.sub (pts.getD i v0)) : ℚ) : ℝ) / Real.pi,
        arctan2 (normVec (cross3 n1 (ns.getD i v0)))
          ((dot3 n1 (ns.getD i v0) : ℚ) : ℝ) / Real.pi,
        Real.sqrt ((dot3 (p1.sub (pts.getD i v0)) (p1.sub (pts.getD i v0)) : ℚ) : ℝ)
          / 0.3] := by
  have hns : i < ns.length := by omega
  have hd : i < (pts.map fun p => p1.sub p).length := by simpa using hi
  have hzip : i < (ns.zip (pts.map fun p => p1.sub p)).length := by
    simp only [List.length_zip, List.length_map, hn]
    omega
  simp only [ppf]
  rw [List.getD_eq_getElem _ _ (by simpa using hi), List.getElem_map,
    List.getElem_range]
  rw [getD_map_of_lt hd (0 : ℝ) v0,
    getD_map_of_lt hzip (0 : ℝ) (v0, v0),
    getD_zip_of_lt hns hd v0 v0,
    getD_map_of_lt hns (0 : ℝ) v0,
    getD_map_of_lt hd (0 : ℝ) v0]
  simp only [getD_map_of_lt hi v0 v0]

theorem vec4_zero (A B C D : ℝ) : (![A, B, C, D]) 0 = A := rfl

theorem vec4_one (A B C D : ℝ) : (![A, B, C, D]) 1 = B := rfl

theorem vec4_two (A B C D : ℝ) : (![A, B, C, D]) 2 = C := rfl

theorem vec4_three (A B C D : ℝ) : (![A, B, C, D]) 3 = D := rfl

theorem getD_of_forall {P : ℝ → Prop} (h0 : P 0) (L : List ℝ)
    (hL : ∀ z ∈ L, P z) (k : Nat) : P (L.getD k 0) := by
  by_cases hk : k < L.length
  · exact hL _ (by rw [List.getD_eq_getElem _ _ hk]; exact List.getElem_mem hk)
  · rw [List.getD_eq_default _ _ (by omega)]
    exact h0

theorem getD_mem_of_pos {α : Type _} {l : List α} {d : α} (h : 0 < l.length) :
    l.getD 0 d ∈ l := by
  rw [List.getD_eq_getElem _ _ h]
  exact List.getElem_mem h

/-! ### Claim theorems -/

/-- C4: for every reference point whose radius query returns only the
reference point itself (one hit, hence zero candidates after self-exclusion),
neighbor collection fails explicitly with the sampling error raised by
drawing from an empty population, rather than silently producing a patch
(for any positive patch size). -/
theorem collect_local_neighbor_fails_on_isolated_reference
    (rng : Rng) (ref_pcd pcd : PointCloud) (vic : ℚ) (num : Nat) (j : Nat)
    (hnum : 1 ≤ num) (hj : j < ref_pcd.points.length)
    (honly : (search_radius_vector_3d pcd (ref_pcd.points.getD j v0) vic).length = 1) :
    collect_local_neighbor rng ref_pcd pcd vic num = .error .emptySample := by
  unfold collect_local_neighbor
  exact collectLoop_error_of_bad pcd vic num hnum ref_pcd.points rng j hj (by omega)

theorem collect_local_neighbor_fails_on_isolated_reference_witness :
    (search_radius_vector_3d cloudTwo (refOrigin.points.getD 0 v0) (3 / 10)).length = 1 ∧
    collect_local_neighbor rngZero refOrigin cloudTwo (3 / 10) 5 =
      .error .emptySample := by
  have h : (search_radius_vector_3d cloudTwo (refOrigin.points.getD 0 v0)
      (3 / 10)).length = 1 := by
    norm_num [search_radius_vector_3d, cloudTwo, refOrigin, sqDist, dot3,
      Vec3.sub, v0, List.range_succ, List.filter_cons, List.filter_nil]
  exact ⟨h, collect_local_neighbor_fails_on_isolated_reference rngZero refOrigin
    cloudTwo (3 / 10) 5 0 (by norm_num) (by norm_num [refOrigin]) h⟩

/-- C5 (amended): when every reference point has at least one candidate after
self-exclusion, neighbor collection succeeds and returns exactly
`num_points_per_patch` indices per reference point; when the candidate count
is greater than **or equal to** the target the returned indices are pairwise
distinct (the code branches on the raw hit count including the self hit, so
at candidate count exactly equal to the target it subsamples without
replacement, not with replacement as the claim stated). -/
theorem collect_local_neighbor_patch_sizes
    (rng : Rng) (ref_pcd pcd : PointCloud) (vic : ℚ) (num : Nat)
    (hall : ∀ j, j < ref_pcd.points.length →
      1 ≤ ((search_radius_vector_3d pcd (ref_pcd.points.getD j v0) vic).drop 1).length) :
    ∃ res rng', collect_local_neighbor rng ref_pcd pcd vic num = .ok (res, rng') ∧
      res.length = ref_pcd.points.length ∧
      ∀ j, j < ref_pcd.points.length →
        (res.getD j []).length = num ∧
        (num ≤ ((search_radius_vector_3d pcd (ref_pcd.points.getD j v0) vic).drop 1).length →
          (res.getD j []).Nodup) := by
  rcases collectLoop_ok_of_all pcd vic num ref_pcd.points rng hall with
    ⟨res, rng', hloop, hlen⟩
  refine ⟨res, rng', hloop, hlen, ?_⟩
  intro j hj
  rcases collectLoop_entry pcd vic num ref_pcd.points rng res rng' hloop j hj with
    ⟨r0, r1, hone⟩
  rcases collectOne_ok r0 pcd (ref_pcd.points.getD j v0) vic num (hall j hj) with
    ⟨out, rng2, hok2, hlen2, _, hnd2⟩
  rw [hone] at hok2
  simp only [Except.ok.injEq, Prod.mk.injEq] at hok2
  rw [hok2.1]
  exact ⟨hlen2, hnd2⟩

theorem collect_local_neighbor_patch_sizes_witness :
    (∀ j, j < refOrigin.points.length →
      1 ≤ ((search_radius_vector_3d cloudNear (refOrigin.points.getD j v0)
        (3 / 10)).drop 1).length) ∧
    ∃ res rng',
      collect_local_neighbor rngZero refOrigin cloudNear (3 / 10) 3 =
        .ok (res, rng') ∧
      res.length = refOrigin.points.length ∧
      ∀ j, j < refOrigin.points.length →
        (res.getD j []).length = 3 ∧
        (3 ≤ ((search_radius_vector_3d cloudNear (refOrigin.points.getD j v0)
            (3 / 10)).drop 1).length →
          (res.getD j []).Nodup) := by
  have hall : ∀ j, j < refOrigin.points.length →
      1 ≤ ((search_radius_vector_3d cloudNear (refOrigin.points.getD j v0)
        (3 / 10)).drop 1).length := by
    intro j hj
    have hj0 : j = 0 := by
      simp only [refOrigin, List.length_cons, List.length_nil] at hj
      omega
    subst hj0
    norm_num [search_radius_vector_3d, cloudNear, refOrigin, sqDist, dot3,
      Vec3.sub, v0, List.range_succ, List.filter_cons, List.filter_nil]
  exact ⟨hall, collect_local_neighbor_patch_sizes rngZero refOrigin cloudNear
    (3 / 10) 3 hall⟩

/-- C5 counterexample: a reference point with exactly two candidates after
self-exclusion and a target of two.  The claim prescribes sampling with
replacement (candidate count ≤ target); the code compares the raw hit count
(3, including the self hit) with the target and subsamples without
replacement instead.  From the all-zero draw stream the code produces
`[1, 2]` while the spec-literal procedure produces `[1, 1]`. -/
theorem collectOne_boundary_counterexample :
    resultIndices (collectOne rngZero cloudThree ⟨0, 0, 0⟩ (3 / 10) 2) =
      some [1, 2] ∧
    resultIndices (collectOneSpec rngZero cloudThree ⟨0, 0, 0⟩ (3 / 10) 2) =
      some [1, 1] ∧
    collectOne rngZero cloudThree ⟨0, 0, 0⟩ (3 / 10) 2 ≠
      collectOneSpec rngZero cloudThree ⟨0, 0, 0⟩ (3 / 10) 2 := by
  have h1 : resultIndices (collectOne rngZero cloudThree ⟨0, 0, 0⟩ (3 / 10) 2) =
      some [1, 2] := by
    norm_num [resultIndices, collectOne, search_radius_vector_3d, cloudThree,
      rngZero, sqDist, dot3, Vec3.sub, v0, List.range_succ, List.filter_cons,
      List.filter_nil, choiceNoReplace, sampleNoReplace, Rng.next, List.eraseIdx]
  have h2 : resultIndices (collectOneSpec rngZero cloudThree ⟨0, 0, 0⟩ (3 / 10) 2) =
      some [1, 1] := by
    norm_num [resultIndices, collectOneSpec, search_radius_vector_3d, cloudThree,
      rngZero, sqDist, dot3, Vec3.sub, v0, List.range_succ, List.filter_cons,
      List.filter_nil, choiceWithReplace, sampleWithReplace, Rng.next]
  refine ⟨h1, h2, ?_⟩
  intro heq
  rw [heq, h2] at h1
  simp at h1

/-- C6: the reference point's own index (its zero-distance radius hit) is
dropped from the candidate set before any sampling, so a successful
neighbor collection never lists that index — stated for a reference point
whose zero-distance hit in the source cloud is unique. -/
theorem collect_local_neighbor_excludes_self
    (rng : Rng) (ref_pcd pcd : PointCloud) (vic : ℚ) (num : Nat)
    (res : List (List Nat)) (rng' : Rng) (j i : Nat)
    (hok : collect_local_neighbor rng ref_pcd pcd vic num = .ok (res, rng'))
    (hj : j < ref_pcd.points.length) (hi : i < pcd.points.length)
    (hself : pcd.points.getD i v0 = ref_pcd.points.getD j v0)
    (huniq : ∀ m, m < pcd.points.length → m ≠ i →
      sqDist (pcd.points.getD m v0) (ref_pcd.points.getD j v0) ≠ 0) :
    i ∉ res.getD j [] := by
  intro hmem
  have hok' : collectLoop rng pcd ref_pcd.points vic num = .ok (res, rng') := hok
  rcases collectLoop_entry pcd vic num ref_pcd.points rng res rng' hok' j hj with
    ⟨r0, r1, hone⟩
  have hsub := collectOne_ok_subset hone i hmem
  have hself0 : sqDist (pcd.points.getD i v0) (ref_pcd.points.getD j v0) = 0 := by
    rw [hself]
    exact sqDist_self _
  rw [search_drop_one pcd (ref_pcd.points.getD j v0) vic i hi hself0 huniq] at hsub
  simp only [List.mem_filter, decide_eq_true_eq] at hsub
  exact hsub.2 hself0

theorem collect_local_neighbor_excludes_self_witness :
    collect_local_neighbor rngZero refOrigin cloudNear (3 / 10) 1 =
      .ok ([[1]], ⟨0⟩) ∧
    (0 : Nat) ∉ ([[1]] : List (List Nat)).getD 0 [] := by
  have h : collect_local_neighbor rngZero refOrigin cloudNear (3 / 10) 1 =
      .ok ([[1]], ⟨0⟩) := by
    norm_num [collect_local_neighbor, collectLoop, collectOne, refOrigin,
      search_radius_vector_3d, cloudNear, rngZero, sqDist, dot3, Vec3.sub, v0,
      List.range_succ, List.filter_cons, List.filter_nil, choiceNoReplace,
      sampleNoReplace, Rng.next, List.eraseIdx]
  refine ⟨h, ?_⟩
  refine collect_local_neighbor_excludes_self rngZero refOrigin cloudNear
    (3 / 10) 1 [[1]] ⟨0⟩ 0 0 h (by norm_num [refOrigin]) (by norm_num [cloudNear])
    rfl ?_
  intro m hm hne
  have hm1 : m = 1 := by
    simp only [cloudNear, List.length_cons, List.length_nil] at hm
    omega
  subst hm1
  norm_num [cloudNear, refOrigin, sqDist, dot3, Vec3.sub, v0]

/-- C9: for every cloud of `N` points and target `K ≤ N`, reference sampling
succeeds and returns the cloud restricted to `K` pairwise-distinct source
indices, each selected point still paired with the normal at the same source
index. -/
theorem select_referenced_point_spec (rng : Rng) (pcd : PointCloud) (K : Nat)
    (hK : K ≤ pcd.points.length) :
    ∃ inds rng',
      select_referenced_point rng pcd K = .ok (select_down_sample pcd inds, rng') ∧
      inds.length = K ∧ inds.Nodup ∧
      (∀ a ∈ inds, a < pcd.points.length) ∧
      (select_down_sample pcd inds).points.length = K ∧
      (select_down_sample pcd inds).normals.length = K ∧
      ∀ j, j < K →
        (select_down_sample pcd inds).points.getD j v0 =
          pcd.points.getD (inds.getD j 0) v0 ∧
        (select_down_sample pcd inds).normals.getD j v0 =
          pcd.normals.getD (inds.getD j 0) v0 := by
  have hKr : K ≤ (List.range pcd.points.length).length := by simpa using hK
  have hlen := sampleNoReplace_length K (List.range pcd.points.length) rng hKr
  refine ⟨(sampleNoReplace K (List.range pcd.points.length) rng).1,
    (sampleNoReplace K (List.range pcd.points.length) rng).2, ?_, hlen,
    sampleNoReplace_nodup _ _ _ (List.nodup_range _) hKr,
    fun a ha => List.mem_range.1 (sampleNoReplace_subset _ _ _ hKr a ha),
    by simp [select_down_sample, hlen],
    by simp [select_down_sample, hlen], ?_⟩
  · simp only [select_referenced_point]
    rw [choiceNoReplace_eq_ok _ _ _ hKr]
  · intro j hj
    have hjl : j < (sampleNoReplace K (List.range pcd.points.length) rng).1.length := by
      omega
    exact ⟨getD_map_vec hjl, getD_map_vec hjl⟩

theorem select_referenced_point_spec_witness :
    1 ≤ cloudNear.points.length ∧
    ∃ inds rng',
      select_referenced_point rngZero cloudNear 1 =
        .ok (select_down_sample cloudNear inds, rng') ∧
      inds.length = 1 ∧ inds.Nodup ∧
      (∀ a ∈ inds, a < cloudNear.points.length) ∧
      (select_down_sample cloudNear inds).points.length = 1 ∧
      (select_down_sample cloudNear inds).normals.length = 1 ∧
      ∀ j, j < 1 →
        (select_down_sample cloudNear inds).points.getD j v0 =
          cloudNear.points.getD (inds.getD j 0) v0 ∧
        (select_down_sample cloudNear inds).normals.getD j v0 =
          cloudNear.normals.getD (inds.getD j 0) v0 := by
  have h1 : 1 ≤ cloudNear.points.length := by norm_num [cloudNear]
  exact ⟨h1, select_referenced_point_spec rngZero cloudNear 1 h1⟩

/-- C10: each PPF row is emitted in the fixed order (angle1, angle2, angle3,
distance), each angle computed as `arctan2(norm(cross(a, b)), dot(a, b)) / pi`
with `(a, b)` being (reference normal, d), (neighbor normal, d) and
(reference normal, neighbor normal) respectively, where
`d = reference − neighbor`. -/
theorem ppf_component_order (p1 n1 : Vec3) (pts ns : List Vec3) (i : Nat)
    (hi : i < pts.length) (hn : ns.length = pts.length) :
    (ppf p1 n1 pts ns).getD i (fun _ => 0) =
      ![arctan2 (normVec (cross3 n1 (p1.sub (pts.getD i v0))))
          ((dot3 n1 (p1.sub (pts.getD i v0)) : ℚ) : ℝ) / Real.pi,
        arctan2 (normVec (cross3 (ns.getD i v0) (p1.sub (pts.getD i v0))))
          ((dot3 (ns.getD i v0) (p1.sub (pts.getD i v0)) : ℚ) : ℝ) / Real.pi,
        arctan2 (normVec (cross3 n1 (ns.getD i v0)))
          ((dot3 n1 (ns.getD i v0) : ℚ) : ℝ) / Real.pi,
        normVec (p1.sub (pts.getD i v0)) / 0.3] := by
  rw [ppf_getD p1 n1 pts ns i hi hn]
  simp only [normVec]

theorem ppf_component_order_witness :
    (ppf ⟨1, 0, 0⟩ ⟨0, 0, 1⟩ [⟨0, 0, 0⟩] [⟨0, 1, 0⟩]).getD 0 (fun _ => 0) =
      ![arctan2 (normVec (cross3 ⟨0, 0, 1⟩
            (Vec3.sub ⟨1, 0, 0⟩ (([⟨0, 0, 0⟩] : List Vec3).getD 0 v0))))
          ((dot3 ⟨0, 0, 1⟩ (Vec3.sub ⟨1, 0, 0⟩
            (([⟨0, 0, 0⟩] : List Vec3).getD 0 v0)) : ℚ) : ℝ) / Real.pi,
        arctan2 (normVec (cross3 (([⟨0, 1, 0⟩] : List Vec3).getD 0 v0)
            (Vec3.sub ⟨1, 0, 0⟩ (([⟨0, 0, 0⟩] : List Vec3).getD 0 v0))))
          ((dot3 (([⟨0, 1, 0⟩] : List Vec3).getD 0 v0) (Vec3.sub ⟨1, 0, 0⟩
            (([⟨0, 0, 0⟩] : List Vec3).getD 0 v0)) : ℚ) : ℝ) / Real.pi,
        arctan2 (normVec (cross3 ⟨0, 0, 1⟩ (([⟨0, 1, 0⟩] : List Vec3).getD 0 v0)))
          ((dot3 ⟨0, 0, 1⟩ (([⟨0, 1, 0⟩] : List Vec3).getD 0 v0) : ℚ) : ℝ) / Real.pi,
        normVec (Vec3.sub ⟨1, 0, 0⟩ (([⟨0, 0, 0⟩] : List Vec3).getD 0 v0)) / 0.3] :=
  ppf_component_order ⟨1, 0, 0⟩ ⟨0, 0, 1⟩ [⟨0, 0, 0⟩] [⟨0, 1, 0⟩] 0
    (by norm_num) rfl

/-- C2 counterexample: for the reference point (3, 0, 0) and neighbor
(0, 0, 0), the Euclidean norm of d is 3 but the emitted distance component
is 10 = 3 / 0.3 — the code divides by the vicinity radius 0.3, so the
distance component is not the raw physical distance the claim states. -/
theorem ppf_distance_counterexample :
    (ppf ⟨3, 0, 0⟩ ⟨0, 0, 1⟩ [⟨0, 0, 0⟩] [⟨0, 0, 1⟩]).getD 0 (fun _ => 0) 3 = 10 ∧
    normVec (Vec3.sub ⟨3, 0, 0⟩ ⟨0, 0, 0⟩) = 3 ∧
    (10 : ℝ) ≠ 3 := by
  have hnv : normVec (Vec3.sub (⟨3, 0, 0⟩ : Vec3) ⟨0, 0, 0⟩) = 3 := by
    have h9 : ((dot3 (Vec3.sub (⟨3, 0, 0⟩ : Vec3) ⟨0, 0, 0⟩)
        (Vec3.sub (⟨3, 0, 0⟩ : Vec3) ⟨0, 0, 0⟩) : ℚ) : ℝ) = (3 : ℝ) ^ 2 := by
      norm_num [dot3, Vec3.sub]
    rw [normVec, h9, Real.sqrt_sq (by norm_num : (0 : ℝ) ≤ 3)]
  refine ⟨?_, hnv, by norm_num⟩
  rw [ppf_getD ⟨3, 0, 0⟩ ⟨0, 0, 1⟩ [⟨0, 0, 0⟩] [⟨0, 0, 1⟩] 0 (by norm_num) rfl,
    vec4_three]
  rw [show Real.sqrt ((dot3 (Vec3.sub (⟨3, 0, 0⟩ : Vec3)
      (([⟨0, 0, 0⟩] : List Vec3).getD 0 v0))
      (Vec3.sub (⟨3, 0, 0⟩ : Vec3) (([⟨0, 0, 0⟩] : List Vec3).getD 0 v0)) : ℚ) : ℝ) =
      normVec (Vec3.sub (⟨3, 0, 0⟩ : Vec3) ⟨0, 0, 0⟩) from rfl]
  rw [hnv]
  norm_num

/-- C2 (amended): the distance component (index 3) of each PPF row equals the
Euclidean norm of d = reference − neighbor divided by the vicinity radius
0.3, not the raw norm. -/
theorem ppf_distance_normalized (p1 n1 : Vec3) (pts ns : List Vec3) (i : Nat)
    (hi : i < pts.length) (hn : ns.length = pts.length) :
    (ppf p1 n1 pts ns).getD i (fun _ => 0) 3 =
      normVec (p1.sub (pts.getD i v0)) / 0.3 := by
  rw [ppf_getD p1 n1 pts ns i hi hn, vec4_three]
  simp only [normVec]

theorem ppf_distance_normalized_witness :
    (ppf ⟨3, 0, 0⟩ ⟨0, 0, 1⟩ [⟨0, 0, 0⟩] [⟨0, 0, 1⟩]).getD 0 (fun _ => 0) 3 =
      normVec (Vec3.sub ⟨3, 0, 0⟩ (([⟨0, 0, 0⟩] : List Vec3).getD 0 v0)) / 0.3 :=
  ppf_distance_normalized ⟨3, 0, 0⟩ ⟨0, 0, 1⟩ [⟨0, 0, 0⟩] [⟨0, 0, 1⟩] 0
    (by norm_num) rfl

/-- C7: every entry of the LocalPatch tensor is a well-defined real number
with all three angle components in [0, 1] and a non-negative distance
component. -/
theorem build_local_patch_entries_bounded
    (ref_pcd pcd : PointCloud) (neighbor : List (List Nat))
    (row : List (Fin 4 → ℝ)) (f : Fin 4 → ℝ)
    (hrow : row ∈ build_local_patch ref_pcd pcd neighbor) (hf : f ∈ row) :
    (0 ≤ f 0 ∧ f 0 ≤ 1) ∧ (0 ≤ f 1 ∧ f 1 ≤ 1) ∧ (0 ≤ f 2 ∧ f 2 ≤ 1) ∧
      0 ≤ f 3 := by
  simp only [build_local_patch, List.mem_map] at hrow
  rcases hrow with ⟨rn, _, hrw⟩
  rw [← hrw] at hf
  simp only [ppf, List.mem_map, List.mem_range] at hf
  rcases hf with ⟨i, _, hfi⟩
  rw [← hfi]
  refine ⟨?_, ?_, ?_, ?_⟩
  · rw [vec4_zero]
    refine @getD_of_forall (fun z => 0 ≤ z ∧ z ≤ 1) (by norm_num) _ ?_ i
    intro z hz
    simp only [List.mem_map] at hz
    rcases hz with ⟨v, _, hv⟩
    rw [← hv]
    exact arctan2_div_pi_bounds _ _ (Real.sqrt_nonneg _)
  · rw [vec4_one]
    refine @getD_of_forall (fun z => 0 ≤ z ∧ z ≤ 1) (by norm_num) _ ?_ i
    intro z hz
    simp only [List.mem_map] at hz
    rcases hz with ⟨v, _, hv⟩
    rw [← hv]
    exact arctan2_div_pi_bounds _ _ (Real.sqrt_nonneg _)
  · rw [vec4_two]
    refine @getD_of_forall (fun z => 0 ≤ z ∧ z ≤ 1) (by norm_num) _ ?_ i
    intro z hz
    simp only [List.mem_map] at hz
    rcases hz with ⟨v, _, hv⟩
    rw [← hv]
    exact arctan2_div_pi_bounds _ _ (Real.sqrt_nonneg _)
  · rw [vec4_three]
    refine @getD_of_forall (fun z => 0 ≤ z) (le_refl 0) _ ?_ i
    intro z hz
    simp only [List.mem_map] at hz
    rcases hz with ⟨v, _, hv⟩
    rw [← hv]
    exact div_nonneg (Real.sqrt_nonneg _) (by norm_num)

theorem build_local_patch_entries_bounded_witness :
    (0 ≤ ((build_local_patch refOrigin cloudNear [[1]]).getD 0 []).getD 0
        (fun _ => 0) 0 ∧
      ((build_local_patch refOrigin cloudNear [[1]]).getD 0 []).getD 0
        (fun _ => 0) 0 ≤ 1) ∧
    (0 ≤ ((build_local_patch refOrigin cloudNear [[1]]).getD 0 []).getD 0
        (fun _ => 0) 1 ∧
      ((build_local_patch refOrigin cloudNear [[1]]).getD 0 []).getD 0
        (fun _ => 0) 1 ≤ 1) ∧
    (0 ≤ ((build_local_patch refOrigin cloudNear [[1]]).getD 0 []).getD 0
        (fun _ => 0) 2 ∧
      ((build_local_patch refOrigin cloudNear [[1]]).getD 0 []).getD 0
        (fun _ => 0) 2 ≤ 1) ∧
    0 ≤ ((build_local_patch refOrigin cloudNear [[1]]).getD 0 []).getD 0
        (fun _ => 0) 3 := by
  have hrow : (build_local_patch refOrigin cloudNear [[1]]).getD 0 [] ∈
      build_local_patch refOrigin cloudNear [[1]] :=
    getD_mem_of_pos (by simp [build_local_patch, refOrigin, cloudNear])
  have hf : ((build_local_patch refOrigin cloudNear [[1]]).getD 0 []).getD 0
      (fun _ => 0) ∈ (build_local_patch refOrigin cloudNear [[1]]).getD 0 [] :=
    getD_mem_of_pos (by simp [build_local_patch, refOrigin, cloudNear, ppf])
  exact build_local_patch_entries_bounded refOrigin cloudNear [[1]] _ _ hrow hf

theorem savedNpyPaths_append (a b : List Ev) :
    savedNpyPaths (a ++ b) = savedNpyPaths a ++ savedNpyPaths b := by
  simp [savedNpyPaths]

theorem savedPcdPaths_append (a b : List Ev) :
    savedPcdPaths (a ++ b) = savedPcdPaths a ++ savedPcdPaths b := by
  simp [savedPcdPaths]

theorem savedNpyPaths_cal (env : Env) (p : PointCloud) :
    savedNpyPaths (cal_local_normal env p).2.2 = [] := by
  by_cases hc : (env.estimate_normals p).1 <;>
    simp [cal_local_normal, hc, savedNpyPaths]

theorem savedPcdPaths_cal (env : Env) (p : PointCloud) :
    savedPcdPaths (cal_local_normal env p).2.2 = [] := by
  by_cases hc : (env.estimate_normals p).1 <;>
    simp [cal_local_normal, hc, savedPcdPaths]

/-- C1 (the filename bug): for every environment, random source, fragment
identifier and save directory, any `.npy` and `.pcd` file `input_preprocess`
saves is named after the Python *builtin* function `id` — the f-strings
interpolate `id`, not the `local_id` parameter — so the output file names
are a constant independent of the fragment identifier, and in particular
differ from the claimed `frag7.npy` / `frag7.pcd` for fragment "frag7". -/
theorem input_preprocess_save_paths_ignore_fragment_id
    (env : Env) (rng : Rng) (data_dir local_id save_dir : String) :
    (savedNpyPaths (input_preprocess env rng data_dir local_id save_dir).2 = [] ∨
      savedNpyPaths (input_preprocess env rng data_dir local_id save_dir).2 =
        [save_dir ++ "/" ++ pyIdBuiltinStr ++ ".npy"]) ∧
    (savedPcdPaths (input_preprocess env rng data_dir local_id save_dir).2 = [] ∨
      savedPcdPaths (input_preprocess env rng data_dir local_id save_dir).2 =
        [save_dir ++ "/" ++ pyIdBuiltinStr ++ ".pcd"]) ∧
    pyIdBuiltinStr ++ ".npy" ≠ "frag7" ++ ".npy" ∧
    pyIdBuiltinStr ++ ".pcd" ≠ "frag7" ++ ".pcd" := by
  refine ⟨?_, ?_, by decide, by decide⟩
  · simp only [input_preprocess]
    split
    · left
      rw [savedNpyPaths_append, savedNpyPaths_cal]
      rfl
    · split
      · left
        rw [savedNpyPaths_append, savedNpyPaths_cal]
        rfl
      · right
        rw [savedNpyPaths_append, savedNpyPaths_append, savedNpyPaths_append,
          savedNpyPaths_cal]
        by_cases hpe : env.path_exists save_dir <;>
          simp [hpe, savedNpyPaths]
  · simp only [input_preprocess]
    split
    · left
      rw [savedPcdPaths_append, savedPcdPaths_cal]
      rfl
    · split
      · left
        rw [savedPcdPaths_append, savedPcdPaths_cal]
        rfl
      · right
        rw [savedPcdPaths_append, savedPcdPaths_append, savedPcdPaths_append,
          savedPcdPaths_cal]
        by_cases hpe : env.path_exists save_dir <;>
          simp [hpe, savedPcdPaths]

/-- C3 counterexample: an environment whose normal estimation fails.
`cal_local_normal` returns `false`, yet both the persisting pipeline and the
on-the-fly pipeline still invoke `select_referenced_point` (the
`selectRefCall` event is emitted). -/
theorem normal_flag_ignored_counterexample :
    (cal_local_normal envStub cloudThree).1 = false ∧
    Ev.selectRefCall ∈ (input_preprocess envStub rngZero "d" "i" "o").2 ∧
    Ev.selectRefCall ∈ (get_local_patches_on_the_fly envStub rngZero "d" "i" 5 2).2 := by
  refine ⟨by simp [cal_local_normal, envStub], ?_, ?_⟩
  · norm_num [input_preprocess, rgbd_to_point_cloud, cal_local_normal, envStub,
      cloudThree, select_referenced_point, choiceNoReplace, rngZero]
  · norm_num [get_local_patches_on_the_fly, rgbd_to_point_cloud,
      cal_local_normal, envStub, cloudThree, select_referenced_point,
      choiceNoReplace, rngZero]

/-- C3 (amended): `cal_local_normal` does return the boolean success flag of
the normal estimator (printing an error on failure), but neither pipeline
consults it: both `input_preprocess` and `get_local_patches_on_the_fly`
proceed to reference sampling unconditionally, for every environment. -/
theorem pipelines_always_sample_references
    (env : Env) (pcd : PointCloud) (rng : Rng)
    (data_dir local_id save_dir ind : String) (np npp : Nat) :
    (cal_local_normal env pcd).1 = (env.estimate_normals pcd).1 ∧
    Ev.selectRefCall ∈ (input_preprocess env rng data_dir local_id save_dir).2 ∧
    Ev.selectRefCall ∈ (get_local_patches_on_the_fly env rng data_dir ind np npp).2 := by
  refine ⟨?_, ?_, ?_⟩
  · by_cases hc : (env.estimate_normals pcd).1 <;> simp [cal_local_normal, hc]
  · simp only [input_preprocess]
    split
    · simp
    · split
      · simp
      · by_cases hpe : env.path_exists save_dir <;> simp [hpe]
  · simp only [get_local_patches_on_the_fly]
    split
    · simp
    · split <;> simp

/-- C8: the embedding threads every source of randomness (the seeded numpy
state) and every external collaborator explicitly through the pipeline, which
is otherwise a pure function; hence two runs of the patch-building pipeline
over the same environment, the same seed and the same fragment arguments
produce identical LocalPatch output. -/
theorem get_local_patches_on_the_fly_deterministic
    (env1 env2 : Env) (rng1 rng2 : Rng) (dd1 dd2 ind1 ind2 : String)
    (np1 np2 npp1 npp2 : Nat)
    (henv : env1 = env2) (hrng : rng1 = rng2) (hdd : dd1 = dd2)
    (hind : ind1 = ind2) (hnp : np1 = np2) (hnpp : npp1 = npp2) :
    get_local_patches_on_the_fly env1 rng1 dd1 ind1 np1 npp1 =
      get_local_patches_on_the_fly env2 rng2 dd2 ind2 np2 npp2 := by
  rw [henv, hrng, hdd, hind, hnp, hnpp]

theorem get_local_patches_on_the_fly_deterministic_witness :
    get_local_patches_on_the_fly envStub rngZero "d" "i" 5 2 =
      get_local_patches_on_the_fly envStub rngZero "d" "i" 5 2 :=
  get_local_patches_on_the_fly_deterministic envStub envStub rngZero rngZero
    "d" "d" "i" "i" 5 5 2 2 rfl rfl rfl rfl rfl rfl

end PPFFoldNet
